import Mathlib

/-!
# Pixel Format Marshaler — verification of `src/png.c`

Shallow embedding of the marshaling core of `src/png.c`: the demultiplexing of
packed byte rows into a typed image (`read_png_stream`, lines 72–128) and the
multiplexing of a typed image back into packed byte rows plus a palette table
(`write_png_stream`, lines 175–264).  The libpng transport (file handling,
signature checks, compression) is out of scope; what the code hands to libpng
(rows, palette, IHDR parameters) is captured in the `handoff_t` structure.

Machine bytes are modelled as `Nat` with an explicit `% 256` at every store
into an 8-bit location (`png_byte` / `uint8_t`).  Functions that can fail in
the C code return `Option`, with `none` standing for the `NULL` / `FAILURE`
outcome.

`allocate_image` and `color_from_rgb` live in `image.c` / `image.h`, which are
not part of the sources under verification; they are modelled from the spec
and marked as such in their doc comments.
-/

/-- The internal color representation (`color_t` of image.h): four 8-bit
channels red, green, blue, alpha. -/
structure color_t where
  r : Nat
  g : Nat
  b : Nat
  a : Nat
deriving DecidableEq, Repr

/-- A pixel cell (the `pixel_t` union of image.h).  Exactly one member is
active per image, selected by the image's color model. -/
inductive pixel_t where
  | idx (v : Nat)
  | gry (v : Nat)
  | col (v : color_t)
deriving DecidableEq, Repr

/-- Union read of the palette-index member `.i`.  Reading an inactive union
member is a contract violation in the C code; it is modelled as 0. -/
def pixel_t.i : pixel_t → Nat
  | .idx v => v
  | _ => 0

/-- Union read of the grayscale member `.g`. -/
def pixel_t.g : pixel_t → Nat
  | .gry v => v
  | _ => 0

/-- Union read of the color member `.c`. -/
def pixel_t.c : pixel_t → color_t
  | .col v => v
  | _ => ⟨0, 0, 0, 0⟩

/-- The typed image (`image_t` of image.h): a `width × height` grid of pixel
cells with a declared color model, and a palette table for Index images. -/
structure image_t where
  width : Nat
  height : Nat
  color_type : Nat
  palette_num : Nat
  palette : List color_t
  map : List (List pixel_t)
deriving DecidableEq, Repr

/-- Modelled from the spec: the color-model tags of image.h (image.h is not
among the sources).  Only their distinctness matters to the code. -/
def COLOR_TYPE_INDEX : Nat := 0

/-- Grayscale color-model tag. -/
def COLOR_TYPE_GRAY : Nat := 1

/-- RGB color-model tag. -/
def COLOR_TYPE_RGB : Nat := 2

/-- RGBA color-model tag. -/
def COLOR_TYPE_RGBA : Nat := 3

/-- libpng color type for paletted images (`PNG_COLOR_TYPE_PALETTE`). -/
def PNG_COLOR_TYPE_PALETTE : Nat := 3

/-- libpng color type for grayscale images (`PNG_COLOR_TYPE_GRAY`). -/
def PNG_COLOR_TYPE_GRAY : Nat := 0

/-- libpng color type for RGB images (`PNG_COLOR_TYPE_RGB`). -/
def PNG_COLOR_TYPE_RGB : Nat := 2

/-- libpng color type for RGBA images (`PNG_COLOR_TYPE_RGB_ALPHA`). -/
def PNG_COLOR_TYPE_RGB_ALPHA : Nat := 6

/-- libpng alias used on the write path: `PNG_COLOR_TYPE_RGBA` is defined in
png.h as `PNG_COLOR_TYPE_RGB_ALPHA`. -/
def PNG_COLOR_TYPE_RGBA : Nat := 6

/-- Modelled from the spec: `allocate_image` lives in image.c, which is not
among the sources.  Per the spec it allocates a `width × height` TypedImage
for the given color model and fails with `AllocationError` (here `none`) when
the allocation cannot be satisfied, e.g. for non-positive dimensions.  The
grid content is fully overwritten by every caller before use; it is modelled
as zero-initialised cells. -/
def allocate_image (width height : Int) (color_type : Nat) : Option image_t :=
  if width ≤ 0 ∨ height ≤ 0 then none
  else some
    { width := width.toNat, height := height.toNat, color_type := color_type,
      palette_num := 0, palette := [],
      map := List.replicate height.toNat (List.replicate width.toNat (pixel_t.idx 0)) }

/-- Modelled from the spec: `color_from_rgb` lives in image.c, which is not
among the sources.  It converts an (r,g,b) triple to the internal color
representation; images read from the transport are fully opaque, so the alpha
channel is 255. -/
def color_from_rgb (r g b : Nat) : color_t :=
  ⟨r % 256, g % 256, b % 256, 255⟩

/-- Byte `j` of packed row `y` (`rows[y][j]` in the C code).  Out-of-bounds
reads never happen under the codec's stride contract; they are modelled as 0. -/
def byteAt (rows : List (List Nat)) (y j : Nat) : Nat :=
  (rows.getD y []).getD j 0

/-- Pixel cell at row `y`, column `x` (`img->map[y][x]` in the C code). -/
def pixelAt (img : image_t) (y x : Nat) : pixel_t :=
  (img.map.getD y []).getD x (pixel_t.idx 0)

/-- Pixel cell at row `y`, column `x` of a raw grid; `pixelAt` on the grid of
an image. -/
def cellAt (mp : List (List pixel_t)) (y x : Nat) : pixel_t :=
  (mp.getD y []).getD x (pixel_t.idx 0)

/-- The marshaling core of `read_png_stream` (src/png.c lines 72–128): the
switch over the transport color type that allocates the typed image and
demultiplexes the packed rows into it.  `pal` and `num_palette` are the
palette data supplied by the codec (`info->palette`, `info->num_palette`).
A color type outside the four handled cases leaves `img == NULL`, i.e.
returns `none`. -/
def decode_rows (rows : List (List Nat)) (width height : Int) (color_type : Nat)
    (pal : List (Nat × Nat × Nat)) (num_palette : Nat) : Option image_t :=
  if color_type = PNG_COLOR_TYPE_PALETTE then
    match allocate_image width height COLOR_TYPE_INDEX with
    | none => none
    | some img => some { img with
        palette_num := num_palette,
        palette := (List.range num_palette).map (fun i =>
          color_from_rgb (pal.getD i (0, 0, 0)).1 (pal.getD i (0, 0, 0)).2.1
            (pal.getD i (0, 0, 0)).2.2),
        map := (List.range img.height).map (fun y =>
          (List.range img.width).map (fun x => pixel_t.idx (byteAt rows y x % 256))) }
  else if color_type = PNG_COLOR_TYPE_GRAY then
    match allocate_image width height COLOR_TYPE_GRAY with
    | none => none
    | some img => some { img with
        map := (List.range img.height).map (fun y =>
          (List.range img.width).map (fun x => pixel_t.gry (byteAt rows y x % 256))) }
  else if color_type = PNG_COLOR_TYPE_RGB then
    match allocate_image width height COLOR_TYPE_RGB with
    | none => none
    | some img => some { img with
        map := (List.range img.height).map (fun y =>
          (List.range img.width).map (fun x =>
            pixel_t.col ⟨byteAt rows y (x * 3 + 0) % 256, byteAt rows y (x * 3 + 1) % 256,
              byteAt rows y (x * 3 + 2) % 256, 0xff⟩)) }
  else if color_type = PNG_COLOR_TYPE_RGB_ALPHA then
    match allocate_image width height COLOR_TYPE_RGBA with
    | none => none
    | some img => some { img with
        map := (List.range img.height).map (fun y =>
          (List.range img.width).map (fun x =>
            pixel_t.col ⟨byteAt rows y (x * 4 + 0) % 256, byteAt rows y (x * 4 + 1) % 256,
              byteAt rows y (x * 4 + 2) % 256, byteAt rows y (x * 4 + 3) % 256⟩)) }
  else none

/-- What `write_png_stream` hands to libpng on success: the IHDR parameters
(width, height, transport color type), the palette table passed to
`png_set_PLTE` (empty when no PLTE chunk is set), and the packed byte rows
passed to `png_set_rows`. -/
structure handoff_t where
  width : Nat
  height : Nat
  color_type : Nat
  palette : List (Nat × Nat × Nat)
  rows : List (List Nat)
deriving DecidableEq, Repr

/-- Byte `k` of an RGB pixel as written by the RGB case of `write_png_stream`
(`rows[y][x*3+k]`): channels r, g, b in order, each stored as a `png_byte`. -/
def rgbByte (p : pixel_t) : Nat → Nat
  | 0 => p.c.r % 256
  | 1 => p.c.g % 256
  | 2 => p.c.b % 256
  | _ => 0

/-- Byte `k` of an RGBA pixel as written by the RGBA case of
`write_png_stream` (`rows[y][x*4+k]`): channels r, g, b, a in order. -/
def rgbaByte (p : pixel_t) : Nat → Nat
  | 0 => p.c.r % 256
  | 1 => p.c.g % 256
  | 2 => p.c.b % 256
  | 3 => p.c.a % 256
  | _ => 0

/-- The marshaling core of `write_png_stream` (src/png.c lines 175–264): the
stride switch (default case: `FAILURE`), the palette table construction for
Index images, and the per-model multiplexing of pixels into packed rows.
Row `y` is the `row_size`-byte buffer filled by the loops; byte `j` of an
RGB/RGBA row belongs to pixel `j / stride`, channel `j % stride`. -/
def encode_image (img : image_t) : Option handoff_t :=
  if img.color_type = COLOR_TYPE_INDEX then
    some
      { width := img.width, height := img.height,
        color_type := PNG_COLOR_TYPE_PALETTE,
        palette := (List.range img.palette_num).map (fun i =>
          ((img.palette.getD i ⟨0, 0, 0, 0⟩).r % 256, (img.palette.getD i ⟨0, 0, 0, 0⟩).g % 256,
            (img.palette.getD i ⟨0, 0, 0, 0⟩).b % 256)),
        rows := (List.range img.height).map (fun y =>
          (List.range img.width).map (fun x => (pixelAt img y x).i % 256)) }
  else if img.color_type = COLOR_TYPE_GRAY then
    some
      { width := img.width, height := img.height,
        color_type := PNG_COLOR_TYPE_GRAY, palette := [],
        rows := (List.range img.height).map (fun y =>
          (List.range img.width).map (fun x => (pixelAt img y x).g % 256)) }
  else if img.color_type = COLOR_TYPE_RGB then
    some
      { width := img.width, height := img.height,
        color_type := PNG_COLOR_TYPE_RGB, palette := [],
        rows := (List.range img.height).map (fun y =>
          (List.range (img.width * 3)).map (fun j => rgbByte (pixelAt img y (j / 3)) (j % 3))) }
  else if img.color_type = COLOR_TYPE_RGBA then
    some
      { width := img.width, height := img.height,
        color_type := PNG_COLOR_TYPE_RGBA, palette := [],
        rows := (List.range img.height).map (fun y =>
          (List.range (img.width * 4)).map (fun j => rgbaByte (pixelAt img y (j / 4)) (j % 4))) }
  else none

/-- `write_png_stream` (src/png.c lines 163–272) as seen from the marshaling
layer: `NULL` input (`none`) fails immediately (lines 172–174), otherwise the
marshaled handoff is produced. -/
def write_png_stream (img : Option image_t) : Option handoff_t :=
  match img with
  | none => none
  | some i => encode_image i

/-- `write_png_file` (src/png.c lines 141–154): `NULL` input fails immediately
(lines 143–145) before any file is opened; otherwise it delegates to
`write_png_stream`. -/
def write_png_file (img : Option image_t) : Option handoff_t :=
  match img with
  | none => none
  | some i => write_png_stream (some i)

/-- Bytes per pixel of a packed row for each color model, as computed by the
`row_size` switch of `write_png_stream` (src/png.c lines 175–194). -/
def stride_of (color_type : Nat) : Nat :=
  if color_type = COLOR_TYPE_INDEX then 1
  else if color_type = COLOR_TYPE_GRAY then 1
  else if color_type = COLOR_TYPE_RGB then 3
  else if color_type = COLOR_TYPE_RGBA then 4
  else 0

/-- Encode an image and decode the resulting handoff back with the same
width, height, color type and palette — the round trip of the spec. -/
def roundTrip (img : image_t) : Option image_t :=
  match encode_image img with
  | none => none
  | some enc =>
      decode_rows enc.rows (enc.width : Int) (enc.height : Int) enc.color_type
        enc.palette enc.palette.length

/-- An Index pixel holding a legal index below `n`. -/
def indexPixelOk (n : Nat) : pixel_t → Bool
  | .idx v => decide (v < n)
  | _ => false

/-- A grayscale pixel holding a byte value. -/
def grayPixelOk : pixel_t → Bool
  | .gry v => decide (v < 256)
  | _ => false

/-- An RGB pixel: byte channels and the implicit alpha 255 of the RGB model. -/
def rgbPixelOk : pixel_t → Bool
  | .col c => decide (c.r < 256) && decide (c.g < 256) && decide (c.b < 256) && decide (c.a = 255)
  | _ => false

/-- An RGBA pixel: four byte channels. -/
def rgbaPixelOk : pixel_t → Bool
  | .col c => decide (c.r < 256) && decide (c.g < 256) && decide (c.b < 256) && decide (c.a < 256)
  | _ => false

/-- A palette entry: byte channels, opaque (palette entries are produced by
`color_from_rgb`, which fixes alpha at 255). -/
def paletteColorOk (c : color_t) : Bool :=
  decide (c.r < 256) && decide (c.g < 256) && decide (c.b < 256) && decide (c.a = 255)

/-- The pixel grid has exactly `height` rows of exactly `width` cells, all
satisfying the given per-model pixel predicate. -/
def gridOk (img : image_t) (pix : pixel_t → Bool) : Prop :=
  img.map.length = img.height ∧
    ∀ r ∈ img.map, r.length = img.width ∧ ∀ p ∈ r, pix p = true

/-- The spec's TypedImage invariants (§3): positive dimensions, a full
`height × width` grid, exactly one pixel representation active as selected by
the color model, indices below `palette_num ≤ 256` with a matching palette
table for Index images, and no palette for the other models. -/
def image_t.valid (img : image_t) : Prop :=
  0 < img.width ∧ 0 < img.height ∧
    ((img.color_type = COLOR_TYPE_INDEX ∧
        img.palette_num ≤ 256 ∧
        img.palette.length = img.palette_num ∧
        (∀ c ∈ img.palette, paletteColorOk c = true) ∧
        gridOk img (indexPixelOk img.palette_num)) ∨
      (img.color_type = COLOR_TYPE_GRAY ∧ img.palette_num = 0 ∧ img.palette = [] ∧
        gridOk img grayPixelOk) ∨
      (img.color_type = COLOR_TYPE_RGB ∧ img.palette_num = 0 ∧ img.palette = [] ∧
        gridOk img rgbPixelOk) ∨
      (img.color_type = COLOR_TYPE_RGBA ∧ img.palette_num = 0 ∧ img.palette = [] ∧
        gridOk img rgbaPixelOk))

instance (img : image_t) (pix : pixel_t → Bool) : Decidable (gridOk img pix) := by
  unfold gridOk
  infer_instance

instance (img : image_t) : Decidable img.valid := by
  unfold image_t.valid
  infer_instance

/-- The 2×1 Index scenario of the spec: palette red, green; pixel indices 0, 1. -/
def idxImg2 : image_t :=
  { width := 2, height := 1, color_type := COLOR_TYPE_INDEX, palette_num := 2,
    palette := [⟨255, 0, 0, 255⟩, ⟨0, 255, 0, 255⟩],
    map := [[pixel_t.idx 0, pixel_t.idx 1]] }

/-- A 1×1 grayscale image. -/
def grayImg1 : image_t :=
  { width := 1, height := 1, color_type := COLOR_TYPE_GRAY, palette_num := 0,
    palette := [], map := [[pixel_t.gry 7]] }

/-- The 1×1 RGB scenario of the spec: pixel (10,20,30), implicitly opaque. -/
def rgbImg1 : image_t :=
  { width := 1, height := 1, color_type := COLOR_TYPE_RGB, palette_num := 0,
    palette := [], map := [[pixel_t.col ⟨10, 20, 30, 255⟩]] }

/-- A 1×1 RGBA image with a non-trivial alpha. -/
def rgbaImg1 : image_t :=
  { width := 1, height := 1, color_type := COLOR_TYPE_RGBA, palette_num := 0,
    palette := [], map := [[pixel_t.col ⟨10, 20, 30, 40⟩]] }

/-- A 1×1 image carrying a color-model tag outside the supported set. -/
def badTagImg : image_t :=
  { width := 1, height := 1, color_type := 42, palette_num := 0,
    palette := [], map := [[pixel_t.gry 7]] }

/-- The handoff produced for `grayImg1`. -/
def grayEnc1 : handoff_t :=
  { width := 1, height := 1, color_type := PNG_COLOR_TYPE_GRAY, palette := [],
    rows := [[7]] }

/-- The handoff produced for `rgbImg1`. -/
def rgbEnc1 : handoff_t :=
  { width := 1, height := 1, color_type := PNG_COLOR_TYPE_RGB, palette := [],
    rows := [[10, 20, 30]] }

/-- The handoff produced for `idxImg2`. -/
def idxEnc2 : handoff_t :=
  { width := 2, height := 1, color_type := PNG_COLOR_TYPE_PALETTE,
    palette := [(255, 0, 0), (0, 255, 0)], rows := [[0, 1]] }

/-! ### Generic lemmas about grids built from `List.range` -/

theorem getD_grid {α : Type} (d : α) (h m : Nat) (f : Nat → Nat → α) (y j : Nat)
    (hy : y < h) (hj : j < m) :
    (((List.range h).map (fun y => (List.range m).map (f y))).getD y []).getD j d = f y j := by
  have h1 : y < ((List.range h).map (fun y => (List.range m).map (f y))).length := by
    simpa using hy
  rw [List.getD_eq_getElem _ _ h1]
  simp only [List.getElem_map, List.getElem_range]
  have h2 : j < ((List.range m).map (f y)).length := by simpa using hj
  rw [List.getD_eq_getElem _ _ h2]
  simp

theorem byteAt_grid (h m : Nat) (f : Nat → Nat → Nat) (y j : Nat) (hy : y < h) (hj : j < m) :
    byteAt ((List.range h).map (fun y => (List.range m).map (f y))) y j = f y j :=
  getD_grid 0 h m f y j hy hj

theorem gridOk_pixelAt (img : image_t) (pix : pixel_t → Bool) (hg : gridOk img pix)
    (y x : Nat) (hy : y < img.height) (hx : x < img.width) :
    pix (pixelAt img y x) = true := by
  obtain ⟨hlen, hrow⟩ := hg
  have hy' : y < img.map.length := by rw [hlen]; exact hy
  obtain ⟨hrlen, hpix⟩ := hrow _ (List.getElem_mem hy')
  have hx' : x < (img.map[y]).length := by rw [hrlen]; exact hx
  have e : pixelAt img y x = (img.map[y]).getD x (pixel_t.idx 0) := by
    unfold pixelAt
    rw [List.getD_eq_getElem _ _ hy']
  rw [e, List.getD_eq_getElem _ _ hx']
  exact hpix _ (List.getElem_mem hx')

theorem decode_grid_eq (w h : Nat) (m : List (List pixel_t)) (F : Nat → Nat → pixel_t)
    (hlen : m.length = h) (hrow : ∀ r ∈ m, r.length = w)
    (hpt : ∀ y x, y < h → x < w → F y x = (m.getD y []).getD x (pixel_t.idx 0)) :
    (List.range h).map (fun y => (List.range w).map (fun x => F y x)) = m := by
  apply List.ext_getElem (by simpa using hlen.symm)
  intro y h1 h2
  simp only [List.getElem_map, List.getElem_range]
  have hy : y < h := by simpa using h1
  apply List.ext_getElem (by simpa using (hrow _ (List.getElem_mem h2)).symm)
  intro x g1 g2
  simp only [List.getElem_map, List.getElem_range]
  have hxw : x < w := by simpa using g1
  rw [hpt y x hy hxw, List.getD_eq_getElem m [] h2, List.getD_eq_getElem _ _ g2]

/-! ### Branch-dispatch lemmas: the color-model switches at concrete tags -/

theorem encode_image_index_eq (w h pn : Nat) (pal : List color_t) (mp : List (List pixel_t)) :
    encode_image ⟨w, h, COLOR_TYPE_INDEX, pn, pal, mp⟩ =
      some
        { width := w, height := h, color_type := PNG_COLOR_TYPE_PALETTE,
          palette := (List.range pn).map (fun i =>
            ((pal.getD i ⟨0, 0, 0, 0⟩).r % 256, (pal.getD i ⟨0, 0, 0, 0⟩).g % 256,
              (pal.getD i ⟨0, 0, 0, 0⟩).b % 256)),
          rows := (List.range h).map (fun y =>
            (List.range w).map (fun x =>
              (pixelAt ⟨w, h, COLOR_TYPE_INDEX, pn, pal, mp⟩ y x).i % 256)) } := rfl

theorem encode_image_gray_eq (w h pn : Nat) (pal : List color_t) (mp : List (List pixel_t)) :
    encode_image ⟨w, h, COLOR_TYPE_GRAY, pn, pal, mp⟩ =
      some
        { width := w, height := h, color_type := PNG_COLOR_TYPE_GRAY, palette := [],
          rows := (List.range h).map (fun y =>
            (List.range w).map (fun x =>
              (pixelAt ⟨w, h, COLOR_TYPE_GRAY, pn, pal, mp⟩ y x).g % 256)) } := rfl

theorem encode_image_rgb_eq (w h pn : Nat) (pal : List color_t) (mp : List (List pixel_t)) :
    encode_image ⟨w, h, COLOR_TYPE_RGB, pn, pal, mp⟩ =
      some
        { width := w, height := h, color_type := PNG_COLOR_TYPE_RGB, palette := [],
          rows := (List.range h).map (fun y =>
            (List.range (w * 3)).map (fun j =>
              rgbByte (pixelAt ⟨w, h, COLOR_TYPE_RGB, pn, pal, mp⟩ y (j / 3)) (j % 3))) } := rfl

theorem encode_image_rgba_eq (w h pn : Nat) (pal : List color_t) (mp : List (List pixel_t)) :
    encode_image ⟨w, h, COLOR_TYPE_RGBA, pn, pal, mp⟩ =
      some
        { width := w, height := h, color_type := PNG_COLOR_TYPE_RGBA, palette := [],
          rows := (List.range h).map (fun y =>
            (List.range (w * 4)).map (fun j =>
              rgbaByte (pixelAt ⟨w, h, COLOR_TYPE_RGBA, pn, pal, mp⟩ y (j / 4)) (j % 4))) } := rfl

theorem decode_rows_palette_eq (rows : List (List Nat)) (w h : Int)
    (pal : List (Nat × Nat × Nat)) (n : Nat) (hne : ¬(w ≤ 0 ∨ h ≤ 0)) :
    decode_rows rows w h PNG_COLOR_TYPE_PALETTE pal n =
      some
        { width := w.toNat, height := h.toNat, color_type := COLOR_TYPE_INDEX,
          palette_num := n,
          palette := (List.range n).map (fun i =>
            color_from_rgb (pal.getD i (0, 0, 0)).1 (pal.getD i (0, 0, 0)).2.1
              (pal.getD i (0, 0, 0)).2.2),
          map := (List.range h.toNat).map (fun y =>
            (List.range w.toNat).map (fun x => pixel_t.idx (byteAt rows y x % 256))) } := by
  have e : decode_rows rows w h PNG_COLOR_TYPE_PALETTE pal n =
      match allocate_image w h COLOR_TYPE_INDEX with
      | none => none
      | some img => some { img with
          palette_num := n,
          palette := (List.range n).map (fun i =>
            color_from_rgb (pal.getD i (0, 0, 0)).1 (pal.getD i (0, 0, 0)).2.1
              (pal.getD i (0, 0, 0)).2.2),
          map := (List.range img.height).map (fun y =>
            (List.range img.width).map (fun x => pixel_t.idx (byteAt rows y x % 256))) } := rfl
  rw [e]
  unfold allocate_image
  rw [if_neg hne]

theorem decode_rows_gray_eq (rows : List (List Nat)) (w h : Int)
    (pal : List (Nat × Nat × Nat)) (n : Nat) (hne : ¬(w ≤ 0 ∨ h ≤ 0)) :
    decode_rows rows w h PNG_COLOR_TYPE_GRAY pal n =
      some
        { width := w.toNat, height := h.toNat, color_type := COLOR_TYPE_GRAY,
          palette_num := 0, palette := [],
          map := (List.range h.toNat).map (fun y =>
            (List.range w.toNat).map (fun x => pixel_t.gry (byteAt rows y x % 256))) } := by
  have e : decode_rows rows w h PNG_COLOR_TYPE_GRAY pal n =
      match allocate_image w h COLOR_TYPE_GRAY with
      | none => none
      | some img => some { img with
          map := (List.range img.height).map (fun y =>
            (List.range img.width).map (fun x => pixel_t.gry (byteAt rows y x % 256))) } := rfl
  rw [e]
  unfold allocate_image
  rw [if_neg hne]

theorem decode_rows_rgb_eq (rows : List (List Nat)) (w h : Int)
    (pal : List (Nat × Nat × Nat)) (n : Nat) (hne : ¬(w ≤ 0 ∨ h ≤ 0)) :
    decode_rows rows w h PNG_COLOR_TYPE_RGB pal n =
      some
        { width := w.toNat, height := h.toNat, color_type := COLOR_TYPE_RGB,
          palette_num := 0, palette := [],
          map := (List.range h.toNat).map (fun y =>
            (List.range w.toNat).map (fun x =>
              pixel_t.col ⟨byteAt rows y (x * 3 + 0) % 256, byteAt rows y (x * 3 + 1) % 256,
                byteAt rows y (x * 3 + 2) % 256, 0xff⟩)) } := by
  have e : decode_rows rows w h PNG_COLOR_TYPE_RGB pal n =
      match allocate_image w h COLOR_TYPE_RGB with
      | none => none
      | some img => some { img with
          map := (List.range img.height).map (fun y =>
            (List.range img.width).map (fun x =>
              pixel_t.col ⟨byteAt rows y (x * 3 + 0) % 256, byteAt rows y (x * 3 + 1) % 256,
                byteAt rows y (x * 3 + 2) % 256, 0xff⟩)) } := rfl
  rw [e]
  unfold allocate_image
  rw [if_neg hne]

theorem decode_rows_rgba_eq (rows : List (List Nat)) (w h : Int)
    (pal : List (Nat × Nat × Nat)) (n : Nat) (hne : ¬(w ≤ 0 ∨ h ≤ 0)) :
    decode_rows rows w h PNG_COLOR_TYPE_RGB_ALPHA pal n =
      some
        { width := w.toNat, height := h.toNat, color_type := COLOR_TYPE_RGBA,
          palette_num := 0, palette := [],
          map := (List.range h.toNat).map (fun y =>
            (List.range w.toNat).map (fun x =>
              pixel_t.col ⟨byteAt rows y (x * 4 + 0) % 256, byteAt rows y (x * 4 + 1) % 256,
                byteAt rows y (x * 4 + 2) % 256, byteAt rows y (x * 4 + 3) % 256⟩)) } := by
  have e : decode_rows rows w h PNG_COLOR_TYPE_RGB_ALPHA pal n =
      match allocate_image w h COLOR_TYPE_RGBA with
      | none => none
      | some img => some { img with
          map := (List.range img.height).map (fun y =>
            (List.range img.width).map (fun x =>
              pixel_t.col ⟨byteAt rows y (x * 4 + 0) % 256, byteAt rows y (x * 4 + 1) % 256,
                byteAt rows y (x * 4 + 2) % 256, byteAt rows y (x * 4 + 3) % 256⟩)) } := rfl
  rw [e]
  unfold allocate_image
  rw [if_neg hne]

theorem dims_pos_ne (w h : Nat) (hw : 0 < w) (hh : 0 < h) :
    ¬(((w : Int)) ≤ 0 ∨ ((h : Int)) ≤ 0) := by
  push_neg
  exact ⟨by exact_mod_cast hw, by exact_mod_cast hh⟩

theorem range_map_getD {α : Type} (n : Nat) (f : Nat → α) (d : α) (i : Nat) (hi : i < n) :
    ((List.range n).map f).getD i d = f i := by
  have h1 : i < ((List.range n).map f).length := by simpa using hi
  rw [List.getD_eq_getElem _ _ h1]
  simp

/-! ### Per-model round trips -/

theorem roundTrip_gray (w h : Nat) (mp : List (List pixel_t)) (hw : 0 < w) (hh : 0 < h)
    (hg : gridOk ⟨w, h, COLOR_TYPE_GRAY, 0, [], mp⟩ grayPixelOk) :
    roundTrip ⟨w, h, COLOR_TYPE_GRAY, 0, [], mp⟩ = some ⟨w, h, COLOR_TYPE_GRAY, 0, [], mp⟩ := by
  have hne : ¬(((w : Int)) ≤ 0 ∨ ((h : Int)) ≤ 0) := dims_pos_ne w h hw hh
  show decode_rows
      ((List.range h).map (fun y => (List.range w).map (fun x =>
        (pixelAt (⟨w, h, COLOR_TYPE_GRAY, 0, [], mp⟩ : image_t) y x).g % 256)))
      ((w : Int)) ((h : Int)) PNG_COLOR_TYPE_GRAY [] 0
      = some ⟨w, h, COLOR_TYPE_GRAY, 0, [], mp⟩
  rw [decode_rows_gray_eq _ _ _ _ _ hne]
  simp only [Int.toNat_natCast, Option.some.injEq, image_t.mk.injEq, true_and]
  refine decode_grid_eq w h mp
    (fun y x => pixel_t.gry (byteAt
      ((List.range h).map (fun y => (List.range w).map (fun x =>
        (pixelAt (⟨w, h, COLOR_TYPE_GRAY, 0, [], mp⟩ : image_t) y x).g % 256))) y x % 256))
    hg.1 (fun r hr => (hg.2 r hr).1) ?_
  intro y x hy hx
  dsimp only
  have hb : byteAt
      ((List.range h).map (fun y => (List.range w).map (fun x =>
        (pixelAt (⟨w, h, COLOR_TYPE_GRAY, 0, [], mp⟩ : image_t) y x).g % 256))) y x
      = (pixelAt (⟨w, h, COLOR_TYPE_GRAY, 0, [], mp⟩ : image_t) y x).g % 256 :=
    byteAt_grid h w _ y x hy hx
  rw [hb]
  have hpix := gridOk_pixelAt _ grayPixelOk hg y x hy hx
  have e : (mp.getD y []).getD x (pixel_t.idx 0)
      = pixelAt (⟨w, h, COLOR_TYPE_GRAY, 0, [], mp⟩ : image_t) y x := rfl
  rw [e]
  cases hp : pixelAt (⟨w, h, COLOR_TYPE_GRAY, 0, [], mp⟩ : image_t) y x with
  | gry v =>
      rw [hp] at hpix
      simp only [grayPixelOk, decide_eq_true_eq] at hpix
      simp [pixel_t.g, Nat.mod_eq_of_lt hpix]
  | idx v =>
      rw [hp] at hpix
      simp [grayPixelOk] at hpix
  | col c =>
      rw [hp] at hpix
      simp [grayPixelOk] at hpix

theorem gridOk_cellAt (w h ct pn : Nat) (pal : List color_t) (mp : List (List pixel_t))
    (pix : pixel_t → Bool) (hg : gridOk ⟨w, h, ct, pn, pal, mp⟩ pix)
    (y x : Nat) (hy : y < h) (hx : x < w) :
    pix (cellAt mp y x) = true :=
  gridOk_pixelAt _ pix hg y x hy hx

theorem roundTrip_index (w h pn : Nat) (pal : List color_t) (mp : List (List pixel_t))
    (hw : 0 < w) (hh : 0 < h) (hle : pn ≤ 256) (hplen : pal.length = pn)
    (hcol : ∀ c ∈ pal, paletteColorOk c = true)
    (hg : gridOk ⟨w, h, COLOR_TYPE_INDEX, pn, pal, mp⟩ (indexPixelOk pn)) :
    roundTrip ⟨w, h, COLOR_TYPE_INDEX, pn, pal, mp⟩
      = some ⟨w, h, COLOR_TYPE_INDEX, pn, pal, mp⟩ := by
  have hne : ¬(((w : Int)) ≤ 0 ∨ ((h : Int)) ≤ 0) := dims_pos_ne w h hw hh
  show decode_rows
      ((List.range h).map (fun y => (List.range w).map (fun x => (cellAt mp y x).i % 256)))
      ((w : Int)) ((h : Int)) PNG_COLOR_TYPE_PALETTE
      ((List.range pn).map (fun i =>
        ((pal.getD i ⟨0, 0, 0, 0⟩).r % 256, (pal.getD i ⟨0, 0, 0, 0⟩).g % 256,
          (pal.getD i ⟨0, 0, 0, 0⟩).b % 256)))
      ((List.range pn).map (fun i =>
        ((pal.getD i ⟨0, 0, 0, 0⟩).r % 256, (pal.getD i ⟨0, 0, 0, 0⟩).g % 256,
          (pal.getD i ⟨0, 0, 0, 0⟩).b % 256))).length
      = some ⟨w, h, COLOR_TYPE_INDEX, pn, pal, mp⟩
  rw [decode_rows_palette_eq _ _ _ _ _ hne]
  simp only [Int.toNat_natCast, List.length_map, List.length_range, Option.some.injEq,
    image_t.mk.injEq, true_and]
  refine ⟨?_, ?_⟩
  · apply List.ext_getElem (by simpa using hplen.symm)
    intro i hm1 hm2
    simp only [List.getElem_map, List.getElem_range]
    have hi : i < pn := by simpa using hm1
    rw [range_map_getD pn
      (fun i => ((pal.getD i ⟨0, 0, 0, 0⟩).r % 256, (pal.getD i ⟨0, 0, 0, 0⟩).g % 256,
        (pal.getD i ⟨0, 0, 0, 0⟩).b % 256)) (0, 0, 0) i hi]
    dsimp only
    rw [List.getD_eq_getElem pal _ hm2]
    have hc := hcol _ (List.getElem_mem hm2)
    simp only [paletteColorOk, Bool.and_eq_true, decide_eq_true_eq] at hc
    obtain ⟨⟨⟨hcr, hcg⟩, hcb⟩, hca⟩ := hc
    simp only [color_from_rgb, Nat.mod_eq_of_lt hcr, Nat.mod_eq_of_lt hcg, Nat.mod_eq_of_lt hcb]
    rw [← hca]
  · refine decode_grid_eq w h mp
      (fun y x => pixel_t.idx (byteAt
        ((List.range h).map (fun y => (List.range w).map (fun x => (cellAt mp y x).i % 256)))
        y x % 256))
      hg.1 (fun r hr => (hg.2 r hr).1) ?_
    intro y x hy hx
    dsimp only
    have hb : byteAt
        ((List.range h).map (fun y => (List.range w).map (fun x => (cellAt mp y x).i % 256))) y x
        = (cellAt mp y x).i % 256 :=
      byteAt_grid h w _ y x hy hx
    rw [hb]
    have hpix := gridOk_cellAt w h COLOR_TYPE_INDEX pn pal mp (indexPixelOk pn) hg y x hy hx
    have e : (mp.getD y []).getD x (pixel_t.idx 0) = cellAt mp y x := rfl
    rw [e]
    cases hp : cellAt mp y x with
    | idx v =>
        rw [hp] at hpix
        simp only [indexPixelOk, decide_eq_true_eq] at hpix
        have hv : v < 256 := lt_of_lt_of_le hpix hle
        simp [pixel_t.i, Nat.mod_eq_of_lt hv]
    | gry v =>
        rw [hp] at hpix
        simp [indexPixelOk] at hpix
    | col c =>
        rw [hp] at hpix
        simp [indexPixelOk] at hpix

theorem roundTrip_rgb (w h : Nat) (mp : List (List pixel_t)) (hw : 0 < w) (hh : 0 < h)
    (hg : gridOk ⟨w, h, COLOR_TYPE_RGB, 0, [], mp⟩ rgbPixelOk) :
    roundTrip ⟨w, h, COLOR_TYPE_RGB, 0, [], mp⟩ = some ⟨w, h, COLOR_TYPE_RGB, 0, [], mp⟩ := by
  have hne : ¬(((w : Int)) ≤ 0 ∨ ((h : Int)) ≤ 0) := dims_pos_ne w h hw hh
  show decode_rows
      ((List.range h).map (fun y => (List.range (w * 3)).map (fun j =>
        rgbByte (cellAt mp y (j / 3)) (j % 3))))
      ((w : Int)) ((h : Int)) PNG_COLOR_TYPE_RGB [] 0
      = some ⟨w, h, COLOR_TYPE_RGB, 0, [], mp⟩
  rw [decode_rows_rgb_eq _ _ _ _ _ hne]
  simp only [Int.toNat_natCast, Option.some.injEq, image_t.mk.injEq, true_and]
  refine decode_grid_eq w h mp
    (fun y x => pixel_t.col ⟨
      byteAt ((List.range h).map (fun y => (List.range (w * 3)).map (fun j =>
        rgbByte (cellAt mp y (j / 3)) (j % 3)))) y (x * 3 + 0) % 256,
      byteAt ((List.range h).map (fun y => (List.range (w * 3)).map (fun j =>
        rgbByte (cellAt mp y (j / 3)) (j % 3)))) y (x * 3 + 1) % 256,
      byteAt ((List.range h).map (fun y => (List.range (w * 3)).map (fun j =>
        rgbByte (cellAt mp y (j / 3)) (j % 3)))) y (x * 3 + 2) % 256, 0xff⟩)
    hg.1 (fun r hr => (hg.2 r hr).1) ?_
  intro y x hy hx
  dsimp only
  have hb0 : byteAt ((List.range h).map (fun y => (List.range (w * 3)).map (fun j =>
      rgbByte (cellAt mp y (j / 3)) (j % 3)))) y (x * 3 + 0)
      = rgbByte (cellAt mp y ((x * 3 + 0) / 3)) ((x * 3 + 0) % 3) :=
    byteAt_grid h (w * 3) _ y (x * 3 + 0) hy (by omega)
  have hb1 : byteAt ((List.range h).map (fun y => (List.range (w * 3)).map (fun j =>
      rgbByte (cellAt mp y (j / 3)) (j % 3)))) y (x * 3 + 1)
      = rgbByte (cellAt mp y ((x * 3 + 1) / 3)) ((x * 3 + 1) % 3) :=
    byteAt_grid h (w * 3) _ y (x * 3 + 1) hy (by omega)
  have hb2 : byteAt ((List.range h).map (fun y => (List.range (w * 3)).map (fun j =>
      rgbByte (cellAt mp y (j / 3)) (j % 3)))) y (x * 3 + 2)
      = rgbByte (cellAt mp y ((x * 3 + 2) / 3)) ((x * 3 + 2) % 3) :=
    byteAt_grid h (w * 3) _ y (x * 3 + 2) hy (by omega)
  have d0 : (x * 3 + 0) / 3 = x := by omega
  have d1 : (x * 3 + 1) / 3 = x := by omega
  have d2 : (x * 3 + 2) / 3 = x := by omega
  have m0 : (x * 3 + 0) % 3 = 0 := by omega
  have m1 : (x * 3 + 1) % 3 = 1 := by omega
  have m2 : (x * 3 + 2) % 3 = 2 := by omega
  rw [d0, m0] at hb0
  rw [d1, m1] at hb1
  rw [d2, m2] at hb2
  rw [hb0, hb1, hb2]
  have hpix := gridOk_cellAt w h COLOR_TYPE_RGB 0 [] mp rgbPixelOk hg y x hy hx
  have e : (mp.getD y []).getD x (pixel_t.idx 0) = cellAt mp y x := rfl
  rw [e]
  cases hp : cellAt mp y x with
  | col c =>
      rw [hp] at hpix
      simp only [rgbPixelOk, Bool.and_eq_true, decide_eq_true_eq] at hpix
      obtain ⟨⟨⟨hcr, hcg⟩, hcb⟩, hca⟩ := hpix
      simp only [rgbByte, pixel_t.c, Nat.mod_eq_of_lt hcr, Nat.mod_eq_of_lt hcg,
        Nat.mod_eq_of_lt hcb]
      rw [← hca]
  | idx v =>
      rw [hp] at hpix
      simp [rgbPixelOk] at hpix
  | gry v =>
      rw [hp] at hpix
      simp [rgbPixelOk] at hpix

theorem roundTrip_rgba (w h : Nat) (mp : List (List pixel_t)) (hw : 0 < w) (hh : 0 < h)
    (hg : gridOk ⟨w, h, COLOR_TYPE_RGBA, 0, [], mp⟩ rgbaPixelOk) :
    roundTrip ⟨w, h, COLOR_TYPE_RGBA, 0, [], mp⟩ = some ⟨w, h, COLOR_TYPE_RGBA, 0, [], mp⟩ := by
  have hne : ¬(((w : Int)) ≤ 0 ∨ ((h : Int)) ≤ 0) := dims_pos_ne w h hw hh
  show decode_rows
      ((List.range h).map (fun y => (List.range (w * 4)).map (fun j =>
        rgbaByte (cellAt mp y (j / 4)) (j % 4))))
      ((w : Int)) ((h : Int)) PNG_COLOR_TYPE_RGB_ALPHA [] 0
      = some ⟨w, h, COLOR_TYPE_RGBA, 0, [], mp⟩
  rw [decode_rows_rgba_eq _ _ _ _ _ hne]
  simp only [Int.toNat_natCast, Option.some.injEq, image_t.mk.injEq, true_and]
  refine decode_grid_eq w h mp
    (fun y x => pixel_t.col ⟨
      byteAt ((List.range h).map (fun y => (List.range (w * 4)).map (fun j =>
        rgbaByte (cellAt mp y (j / 4)) (j % 4)))) y (x * 4 + 0) % 256,
      byteAt ((List.range h).map (fun y => (List.range (w * 4)).map (fun j =>
        rgbaByte (cellAt mp y (j / 4)) (j % 4)))) y (x * 4 + 1) % 256,
      byteAt ((List.range h).map (fun y => (List.range (w * 4)).map (fun j =>
        rgbaByte (cellAt mp y (j / 4)) (j % 4)))) y (x * 4 + 2) % 256,
      byteAt ((List.range h).map (fun y => (List.range (w * 4)).map (fun j =>
        rgbaByte (cellAt mp y (j / 4)) (j % 4)))) y (x * 4 + 3) % 256⟩)
    hg.1 (fun r hr => (hg.2 r hr).1) ?_
  intro y x hy hx
  dsimp only
  have hb0 : byteAt ((List.range h).map (fun y => (List.range (w * 4)).map (fun j =>
      rgbaByte (cellAt mp y (j / 4)) (j % 4)))) y (x * 4 + 0)
      = rgbaByte (cellAt mp y ((x * 4 + 0) / 4)) ((x * 4 + 0) % 4) :=
    byteAt_grid h (w * 4) _ y (x * 4 + 0) hy (by omega)
  have hb1 : byteAt ((List.range h).map (fun y => (List.range (w * 4)).map (fun j =>
      rgbaByte (cellAt mp y (j / 4)) (j % 4)))) y (x * 4 + 1)
      = rgbaByte (cellAt mp y ((x * 4 + 1) / 4)) ((x * 4 + 1) % 4) :=
    byteAt_grid h (w * 4) _ y (x * 4 + 1) hy (by omega)
  have hb2 : byteAt ((List.range h).map (fun y => (List.range (w * 4)).map (fun j =>
      rgbaByte (cellAt mp y (j / 4)) (j % 4)))) y (x * 4 + 2)
      = rgbaByte (cellAt mp y ((x * 4 + 2) / 4)) ((x * 4 + 2) % 4) :=
    byteAt_grid h (w * 4) _ y (x * 4 + 2) hy (by omega)
  have hb3 : byteAt ((List.range h).map (fun y => (List.range (w * 4)).map (fun j =>
      rgbaByte (cellAt mp y (j / 4)) (j % 4)))) y (x * 4 + 3)
      = rgbaByte (cellAt mp y ((x * 4 + 3) / 4)) ((x * 4 + 3) % 4) :=
    byteAt_grid h (w * 4) _ y (x * 4 + 3) hy (by omega)
  have d0 : (x * 4 + 0) / 4 = x := by omega
  have d1 : (x * 4 + 1) / 4 = x := by omega
  have d2 : (x * 4 + 2) / 4 = x := by omega
  have d3 : (x * 4 + 3) / 4 = x := by omega
  have m0 : (x * 4 + 0) % 4 = 0 := by omega
  have m1 : (x * 4 + 1) % 4 = 1 := by omega
  have m2 : (x * 4 + 2) % 4 = 2 := by omega
  have m3 : (x * 4 + 3) % 4 = 3 := by omega
  rw [d0, m0] at hb0
  rw [d1, m1] at hb1
  rw [d2, m2] at hb2
  rw [d3, m3] at hb3
  rw [hb0, hb1, hb2, hb3]
  have hpix := gridOk_cellAt w h COLOR_TYPE_RGBA 0 [] mp rgbaPixelOk hg y x hy hx
  have e : (mp.getD y []).getD x (pixel_t.idx 0) = cellAt mp y x := rfl
  rw [e]
  cases hp : cellAt mp y x with
  | col c =>
      rw [hp] at hpix
      simp only [rgbaPixelOk, Bool.and_eq_true, decide_eq_true_eq] at hpix
      obtain ⟨⟨⟨hcr, hcg⟩, hcb⟩, hca⟩ := hpix
      simp only [rgbaByte, pixel_t.c, Nat.mod_eq_of_lt hcr, Nat.mod_eq_of_lt hcg,
        Nat.mod_eq_of_lt hcb, Nat.mod_eq_of_lt hca]
  | idx v =>
      rw [hp] at hpix
      simp [rgbaPixelOk] at hpix
  | gry v =>
      rw [hp] at hpix
      simp [rgbaPixelOk] at hpix

theorem roundTrip_eq_of_valid (img : image_t) (hv : img.valid) : roundTrip img = some img := by
  obtain ⟨w, h, ct, pn, pal, mp⟩ := img
  unfold image_t.valid at hv
  dsimp only at hv
  obtain ⟨hw, hh, hc⟩ := hv
  rcases hc with ⟨hct, hle, hplen, hcol, hg⟩ | ⟨hct, hn, hpal, hg⟩ | ⟨hct, hn, hpal, hg⟩ |
    ⟨hct, hn, hpal, hg⟩
  · subst hct
    exact roundTrip_index w h pn pal mp hw hh hle hplen hcol hg
  · subst hct; subst hn; subst hpal
    exact roundTrip_gray w h mp hw hh hg
  · subst hct; subst hn; subst hpal
    exact roundTrip_rgb w h mp hw hh hg
  · subst hct; subst hn; subst hpal
    exact roundTrip_rgba w h mp hw hh hg

theorem byteAt_lt (rows : List (List Nat)) (hb : ∀ r ∈ rows, ∀ b ∈ r, b < 256) (y j : Nat) :
    byteAt rows y j < 256 := by
  unfold byteAt
  rcases Nat.lt_or_ge y rows.length with hy | hy
  · rw [List.getD_eq_getElem rows [] hy]
    rcases Nat.lt_or_ge j (rows[y]).length with hj | hj
    · rw [List.getD_eq_getElem _ 0 hj]
      exact hb _ (List.getElem_mem hy) _ (List.getElem_mem hj)
    · rw [List.getD_eq_default _ 0 hj]
      omega
  · rw [List.getD_eq_default _ [] hy]
    show (0 : Nat) < 256
    omega

theorem decode_rows_nonpos (rows : List (List Nat)) (w h : Int) (ct : Nat)
    (pal : List (Nat × Nat × Nat)) (n : Nat) (hwh : w ≤ 0 ∨ h ≤ 0) :
    decode_rows rows w h ct pal n = none := by
  unfold decode_rows allocate_image
  simp only [if_pos hwh]
  split_ifs <;> rfl

/-! ### Claim theorems -/

/-- C1: for every valid TypedImage of any of the four color models (Index with
its palette included), decoding the packed rows produced by `encode_image`
with the same width, height and color model yields a TypedImage equal to the
original; for RGB the equality holds because decode forces alpha to 255 and
valid RGB images carry alpha 255. -/
theorem encode_decode_round_trip (img : image_t) (hv : img.valid) :
    roundTrip img = some img :=
  roundTrip_eq_of_valid img hv

theorem encode_decode_round_trip_witness :
    idxImg2.valid ∧ roundTrip idxImg2 = some idxImg2 :=
  ⟨by decide, encode_decode_round_trip idxImg2 (by decide)⟩

/-- C6: a non-null image whose color-model tag lies outside the closed set
{Index, Gray, RGB, RGBA} makes `encode_image` fail with no output rows and no
handoff to the codec (the `default: return FAILURE` of the stride switch). -/
theorem encode_unknown_color_type_fails (img : image_t)
    (h0 : img.color_type ≠ COLOR_TYPE_INDEX) (h1 : img.color_type ≠ COLOR_TYPE_GRAY)
    (h2 : img.color_type ≠ COLOR_TYPE_RGB) (h3 : img.color_type ≠ COLOR_TYPE_RGBA) :
    encode_image img = none := by
  unfold encode_image
  rw [if_neg h0, if_neg h1, if_neg h2, if_neg h3]

theorem encode_unknown_color_type_fails_witness :
    badTagImg.color_type ≠ COLOR_TYPE_INDEX ∧ badTagImg.color_type ≠ COLOR_TYPE_GRAY ∧
      badTagImg.color_type ≠ COLOR_TYPE_RGB ∧ badTagImg.color_type ≠ COLOR_TYPE_RGBA ∧
      encode_image badTagImg = none :=
  ⟨by decide, by decide, by decide, by decide,
    encode_unknown_color_type_fails badTagImg (by decide) (by decide) (by decide) (by decide)⟩

/-- C7: two calls of `decode_rows` on the same input rows, dimensions, color
type and palette source produce structurally equal TypedImage values; the
embedding is a pure function of its inputs, so the inputs are not mutated. -/
theorem decode_rows_deterministic (rows₁ rows₂ : List (List Nat)) (w₁ w₂ h₁ h₂ : Int)
    (ct₁ ct₂ : Nat) (pal₁ pal₂ : List (Nat × Nat × Nat)) (n₁ n₂ : Nat)
    (hr : rows₁ = rows₂) (hw : w₁ = w₂) (hh : h₁ = h₂) (hct : ct₁ = ct₂)
    (hp : pal₁ = pal₂) (hn : n₁ = n₂) :
    decode_rows rows₁ w₁ h₁ ct₁ pal₁ n₁ = decode_rows rows₂ w₂ h₂ ct₂ pal₂ n₂ := by
  subst hr hw hh hct hp hn
  rfl

theorem decode_rows_deterministic_witness :
    decode_rows [[5]] 1 1 PNG_COLOR_TYPE_GRAY [] 0
      = decode_rows [[5]] 1 1 PNG_COLOR_TYPE_GRAY [] 0 :=
  decode_rows_deterministic [[5]] [[5]] 1 1 1 1 PNG_COLOR_TYPE_GRAY PNG_COLOR_TYPE_GRAY
    [] [] 0 0 rfl rfl rfl rfl rfl rfl

/-- C8: a decode call whose width or height is non-positive fails with
`AllocationError` (`allocate_image` returns `NULL`) and yields no TypedImage,
whatever the color type. -/
theorem decode_nonpositive_dims_fails (rows : List (List Nat)) (w h : Int) (ct : Nat)
    (pal : List (Nat × Nat × Nat)) (n : Nat) (hwh : w ≤ 0 ∨ h ≤ 0) :
    decode_rows rows w h ct pal n = none :=
  decode_rows_nonpos rows w h ct pal n hwh

theorem decode_nonpositive_dims_fails_witness :
    (((0 : Int)) ≤ 0 ∨ ((5 : Int)) ≤ 0) ∧
      decode_rows [] 0 5 PNG_COLOR_TYPE_GRAY [] 0 = none :=
  ⟨Or.inl (by decide),
    decode_nonpositive_dims_fails [] 0 5 PNG_COLOR_TYPE_GRAY [] 0 (Or.inl (by decide))⟩

/-- C9 (counterexample): a decode call with `height = 0` and an empty row list
does not produce an image with zero rows — it produces no image at all,
because `allocate_image` rejects non-positive dimensions. -/
theorem decode_zero_height_no_image :
    decode_rows [] 1 0 PNG_COLOR_TYPE_GRAY [] 0 = none := by decide

/-- C9 (amended): a `width = 1, height = 1` valid image of any of the four
color models round-trips through encode and decode to itself, and a decode
call with `height = 0` does not crash but fails with `AllocationError`
(returns no image) rather than allocating an image with zero rows. -/
theorem single_pixel_round_trip_and_zero_height_fails :
    (∀ img : image_t, img.valid → img.width = 1 → img.height = 1 →
        roundTrip img = some img) ∧
      (∀ (rows : List (List Nat)) (w : Int) (ct : Nat) (pal : List (Nat × Nat × Nat)) (n : Nat),
        decode_rows rows w 0 ct pal n = none) :=
  ⟨fun img hv _ _ => roundTrip_eq_of_valid img hv,
    fun rows w ct pal n => decode_rows_nonpos rows w 0 ct pal n (Or.inr le_rfl)⟩

theorem single_pixel_round_trip_and_zero_height_fails_witness :
    (rgbaImg1.valid ∧ rgbaImg1.width = 1 ∧ rgbaImg1.height = 1 ∧
        roundTrip rgbaImg1 = some rgbaImg1) ∧
      decode_rows [] 3 0 PNG_COLOR_TYPE_RGB [] 0 = none :=
  ⟨⟨by decide, rfl, rfl,
      single_pixel_round_trip_and_zero_height_fails.1 rgbaImg1 (by decide) rfl rfl⟩,
    single_pixel_round_trip_and_zero_height_fails.2 [] 3 PNG_COLOR_TYPE_RGB [] 0⟩

/-- C10: a null image pointer makes both `write_png_file` and
`write_png_stream` return failure immediately; in this pure embedding no rows
are allocated and no output is produced. -/
theorem write_null_image_fails :
    write_png_file none = none ∧ write_png_stream none = none :=
  ⟨rfl, rfl⟩

/-- C2: every row of a successfully encoded image has length exactly
`width * stride(model)`, with stride 1 for Index and Gray, 3 for RGB and 4
for RGBA, and there are exactly `height` rows. -/
theorem encode_row_stride (img : image_t) (enc : handoff_t)
    (henc : encode_image img = some enc) (r : List Nat) (hr : r ∈ enc.rows) :
    enc.rows.length = img.height ∧ r.length = img.width * stride_of img.color_type := by
  unfold encode_image at henc
  split_ifs at henc with h0 h1 h2 h3
  · injection henc with h
    subst h
    dsimp only at hr
    refine ⟨by simp, ?_⟩
    simp only [List.mem_map] at hr
    obtain ⟨y, hy, rfl⟩ := hr
    simp [stride_of, h0, COLOR_TYPE_INDEX, COLOR_TYPE_GRAY, COLOR_TYPE_RGB, COLOR_TYPE_RGBA]
  · injection henc with h
    subst h
    dsimp only at hr
    refine ⟨by simp, ?_⟩
    simp only [List.mem_map] at hr
    obtain ⟨y, hy, rfl⟩ := hr
    simp [stride_of, h1, COLOR_TYPE_INDEX, COLOR_TYPE_GRAY, COLOR_TYPE_RGB, COLOR_TYPE_RGBA]
  · injection henc with h
    subst h
    dsimp only at hr
    refine ⟨by simp, ?_⟩
    simp only [List.mem_map] at hr
    obtain ⟨y, hy, rfl⟩ := hr
    simp [stride_of, h2, COLOR_TYPE_INDEX, COLOR_TYPE_GRAY, COLOR_TYPE_RGB, COLOR_TYPE_RGBA]
  · injection henc with h
    subst h
    dsimp only at hr
    refine ⟨by simp, ?_⟩
    simp only [List.mem_map] at hr
    obtain ⟨y, hy, rfl⟩ := hr
    simp [stride_of, h3, COLOR_TYPE_INDEX, COLOR_TYPE_GRAY, COLOR_TYPE_RGB, COLOR_TYPE_RGBA]

theorem encode_row_stride_witness :
    encode_image rgbImg1 = some rgbEnc1 ∧ [10, 20, 30] ∈ rgbEnc1.rows ∧
      rgbEnc1.rows.length = rgbImg1.height ∧
      ([10, 20, 30] : List Nat).length = rgbImg1.width * stride_of rgbImg1.color_type :=
  ⟨by decide, by decide,
    encode_row_stride rgbImg1 rgbEnc1 (by decide) [10, 20, 30] (by decide)⟩

/-- C3: decoding RGB rows stores the three consecutive input bytes at offsets
`x*3`, `x*3+1`, `x*3+2` of row `y` into the (r,g,b) channels of the pixel at
(y,x), and forces the alpha channel of every decoded pixel to 255. -/
theorem decode_rgb_pixels (rows : List (List Nat)) (w h : Int)
    (pal : List (Nat × Nat × Nat)) (n : Nat) (img : image_t)
    (hb : ∀ r ∈ rows, ∀ b ∈ r, b < 256)
    (hdec : decode_rows rows w h PNG_COLOR_TYPE_RGB pal n = some img)
    (y x : Nat) (hy : y < img.height) (hx : x < img.width) :
    pixelAt img y x = pixel_t.col ⟨byteAt rows y (x * 3 + 0), byteAt rows y (x * 3 + 1),
      byteAt rows y (x * 3 + 2), 255⟩ := by
  have hpos : ¬(w ≤ 0 ∨ h ≤ 0) := by
    intro hcon
    rw [decode_rows_nonpos rows w h PNG_COLOR_TYPE_RGB pal n hcon] at hdec
    exact Option.noConfusion hdec
  rw [decode_rows_rgb_eq rows w h pal n hpos] at hdec
  injection hdec with h'
  subst h'
  dsimp only at hy hx
  have e : pixelAt
      (⟨w.toNat, h.toNat, COLOR_TYPE_RGB, 0, [],
        (List.range h.toNat).map (fun y => (List.range w.toNat).map (fun x =>
          pixel_t.col ⟨byteAt rows y (x * 3 + 0) % 256, byteAt rows y (x * 3 + 1) % 256,
            byteAt rows y (x * 3 + 2) % 256, 0xff⟩))⟩ : image_t) y x
      = pixel_t.col ⟨byteAt rows y (x * 3 + 0) % 256, byteAt rows y (x * 3 + 1) % 256,
          byteAt rows y (x * 3 + 2) % 256, 0xff⟩ :=
    getD_grid (pixel_t.idx 0) h.toNat w.toNat _ y x hy hx
  rw [e]
  have l0 := byteAt_lt rows hb y (x * 3 + 0)
  have l1 := byteAt_lt rows hb y (x * 3 + 1)
  have l2 := byteAt_lt rows hb y (x * 3 + 2)
  rw [Nat.mod_eq_of_lt l0, Nat.mod_eq_of_lt l1, Nat.mod_eq_of_lt l2]

theorem decode_rgb_pixels_witness :
    (∀ r ∈ ([[10, 20, 30]] : List (List Nat)), ∀ b ∈ r, b < 256) ∧
      decode_rows [[10, 20, 30]] 1 1 PNG_COLOR_TYPE_RGB [] 0 = some rgbImg1 ∧
      pixelAt rgbImg1 0 0 = pixel_t.col ⟨byteAt [[10, 20, 30]] 0 (0 * 3 + 0),
        byteAt [[10, 20, 30]] 0 (0 * 3 + 1), byteAt [[10, 20, 30]] 0 (0 * 3 + 2), 255⟩ :=
  ⟨by decide, by decide,
    decode_rgb_pixels [[10, 20, 30]] 1 1 [] 0 rgbImg1 (by decide) (by decide) 0 0
      (by decide) (by decide)⟩

/-- C4: encoding an RGB image writes, for the pixel at (y,x), exactly the
bytes (r,g,b) in that channel order at offsets `x*3`, `x*3+1`, `x*3+2` of
output row `y`, and writes no alpha byte: the row holds `width * 3` bytes. -/
theorem encode_rgb_bytes (img : image_t) (enc : handoff_t)
    (hct : img.color_type = COLOR_TYPE_RGB) (hg : gridOk img rgbPixelOk)
    (henc : encode_image img = some enc)
    (y x : Nat) (hy : y < img.height) (hx : x < img.width) :
    (enc.rows.getD y []).length = img.width * 3 ∧
      (enc.rows.getD y []).getD (x * 3 + 0) 0 = (pixelAt img y x).c.r ∧
      (enc.rows.getD y []).getD (x * 3 + 1) 0 = (pixelAt img y x).c.g ∧
      (enc.rows.getD y []).getD (x * 3 + 2) 0 = (pixelAt img y x).c.b := by
  obtain ⟨w, h, ct, pn, pal, mp⟩ := img
  dsimp only at hct hy hx ⊢
  subst hct
  rw [encode_image_rgb_eq] at henc
  injection henc with h'
  subst h'
  dsimp only
  have hrowlen : (((List.range h).map (fun y => (List.range (w * 3)).map (fun j =>
      rgbByte (pixelAt ⟨w, h, COLOR_TYPE_RGB, pn, pal, mp⟩ y (j / 3)) (j % 3)))).getD y
        []).length = w * 3 := by
    rw [range_map_getD h _ [] y hy]
    simp
  have hb0 : ((((List.range h).map (fun y => (List.range (w * 3)).map (fun j =>
      rgbByte (pixelAt ⟨w, h, COLOR_TYPE_RGB, pn, pal, mp⟩ y (j / 3)) (j % 3)))).getD y
        []).getD (x * 3 + 0) 0)
      = rgbByte (pixelAt ⟨w, h, COLOR_TYPE_RGB, pn, pal, mp⟩ y ((x * 3 + 0) / 3))
          ((x * 3 + 0) % 3) :=
    byteAt_grid h (w * 3) _ y (x * 3 + 0) hy (by omega)
  have hb1 : ((((List.range h).map (fun y => (List.range (w * 3)).map (fun j =>
      rgbByte (pixelAt ⟨w, h, COLOR_TYPE_RGB, pn, pal, mp⟩ y (j / 3)) (j % 3)))).getD y
        []).getD (x * 3 + 1) 0)
      = rgbByte (pixelAt ⟨w, h, COLOR_TYPE_RGB, pn, pal, mp⟩ y ((x * 3 + 1) / 3))
          ((x * 3 + 1) % 3) :=
    byteAt_grid h (w * 3) _ y (x * 3 + 1) hy (by omega)
  have hb2 : ((((List.range h).map (fun y => (List.range (w * 3)).map (fun j =>
      rgbByte (pixelAt ⟨w, h, COLOR_TYPE_RGB, pn, pal, mp⟩ y (j / 3)) (j % 3)))).getD y
        []).getD (x * 3 + 2) 0)
      = rgbByte (pixelAt ⟨w, h, COLOR_TYPE_RGB, pn, pal, mp⟩ y ((x * 3 + 2) / 3))
          ((x * 3 + 2) % 3) :=
    byteAt_grid h (w * 3) _ y (x * 3 + 2) hy (by omega)
  have d0 : (x * 3 + 0) / 3 = x := by omega
  have d1 : (x * 3 + 1) / 3 = x := by omega
  have d2 : (x * 3 + 2) / 3 = x := by omega
  have m0 : (x * 3 + 0) % 3 = 0 := by omega
  have m1 : (x * 3 + 1) % 3 = 1 := by omega
  have m2 : (x * 3 + 2) % 3 = 2 := by omega
  rw [d0, m0] at hb0
  rw [d1, m1] at hb1
  rw [d2, m2] at hb2
  have hpix := gridOk_pixelAt _ rgbPixelOk hg y x hy hx
  cases hp : pixelAt (⟨w, h, COLOR_TYPE_RGB, pn, pal, mp⟩ : image_t) y x with
  | col c =>
      rw [hp] at hpix hb0 hb1 hb2
      simp only [rgbPixelOk, Bool.and_eq_true, decide_eq_true_eq] at hpix
      obtain ⟨⟨⟨hcr, hcg⟩, hcb⟩, hca⟩ := hpix
      refine ⟨hrowlen, ?_, ?_, ?_⟩
      · rw [hb0]
        simp [rgbByte, pixel_t.c, Nat.mod_eq_of_lt hcr]
      · rw [hb1]
        simp [rgbByte, pixel_t.c, Nat.mod_eq_of_lt hcg]
      · rw [hb2]
        simp [rgbByte, pixel_t.c, Nat.mod_eq_of_lt hcb]
  | idx v =>
      rw [hp] at hpix
      simp [rgbPixelOk] at hpix
  | gry v =>
      rw [hp] at hpix
      simp [rgbPixelOk] at hpix

theorem encode_rgb_bytes_witness :
    (rgbEnc1.rows.getD 0 []).length = rgbImg1.width * 3 ∧
      (rgbEnc1.rows.getD 0 []).getD (0 * 3 + 0) 0 = (pixelAt rgbImg1 0 0).c.r ∧
      (rgbEnc1.rows.getD 0 []).getD (0 * 3 + 1) 0 = (pixelAt rgbImg1 0 0).c.g ∧
      (rgbEnc1.rows.getD 0 []).getD (0 * 3 + 2) 0 = (pixelAt rgbImg1 0 0).c.b :=
  encode_rgb_bytes rgbImg1 rgbEnc1 (by decide) (by decide) (by decide) 0 0
    (by decide) (by decide)

/-- C5: encoding a valid Index image emits a palette table holding exactly the
first `palette_num` entries of the image's palette as RGB triples in order,
with `palette_num ≤ 256`, and every per-pixel output byte equals the cell's
stored index unchanged. -/
theorem encode_index_palette_bytes (img : image_t) (enc : handoff_t)
    (hct : img.color_type = COLOR_TYPE_INDEX) (hle : img.palette_num ≤ 256)
    (hplen : img.palette.length = img.palette_num)
    (hcol : ∀ c ∈ img.palette, paletteColorOk c = true)
    (hg : gridOk img (indexPixelOk img.palette_num))
    (henc : encode_image img = some enc)
    (y x : Nat) (hy : y < img.height) (hx : x < img.width) :
    enc.palette = (img.palette.take img.palette_num).map (fun c => (c.r, c.g, c.b)) ∧
      enc.palette.length = img.palette_num ∧ img.palette_num ≤ 256 ∧
      (enc.rows.getD y []).getD x 0 = (pixelAt img y x).i := by
  obtain ⟨w, h, ct, pn, pal, mp⟩ := img
  dsimp only at hct hle hplen hcol hy hx ⊢
  subst hct
  rw [encode_image_index_eq] at henc
  injection henc with h'
  subst h'
  dsimp only
  refine ⟨?_, by simp, hle, ?_⟩
  · apply List.ext_getElem
    · simp [hplen]
    intro i hm1 hm2
    simp only [List.getElem_map, List.getElem_range]
    have hi : i < pn := by simpa using hm1
    have hil : i < pal.length := by omega
    rw [List.getD_eq_getElem pal _ hil]
    have hc := hcol _ (List.getElem_mem hil)
    simp only [paletteColorOk, Bool.and_eq_true, decide_eq_true_eq] at hc
    obtain ⟨⟨⟨hcr, hcg⟩, hcb⟩, hca⟩ := hc
    simp [List.getElem_take, Nat.mod_eq_of_lt hcr, Nat.mod_eq_of_lt hcg, Nat.mod_eq_of_lt hcb]
  · have hb : ((((List.range h).map (fun y => (List.range w).map (fun x =>
        (pixelAt ⟨w, h, COLOR_TYPE_INDEX, pn, pal, mp⟩ y x).i % 256))).getD y []).getD x 0)
        = (pixelAt ⟨w, h, COLOR_TYPE_INDEX, pn, pal, mp⟩ y x).i % 256 :=
      byteAt_grid h w _ y x hy hx
    rw [hb]
    have hpix := gridOk_pixelAt _ (indexPixelOk pn) hg y x hy hx
    cases hp : pixelAt (⟨w, h, COLOR_TYPE_INDEX, pn, pal, mp⟩ : image_t) y x with
    | idx v =>
        rw [hp] at hpix
        simp only [indexPixelOk, decide_eq_true_eq] at hpix
        simp [pixel_t.i, Nat.mod_eq_of_lt (lt_of_lt_of_le hpix hle)]
    | gry v =>
        rw [hp] at hpix
        simp [indexPixelOk] at hpix
    | col c =>
        rw [hp] at hpix
        simp [indexPixelOk] at hpix

theorem encode_index_palette_bytes_witness :
    idxEnc2.palette = (idxImg2.palette.take idxImg2.palette_num).map (fun c => (c.r, c.g, c.b)) ∧
      idxEnc2.palette.length = idxImg2.palette_num ∧ idxImg2.palette_num ≤ 256 ∧
      (idxEnc2.rows.getD 0 []).getD 1 0 = (pixelAt idxImg2 0 1).i :=
  encode_index_palette_bytes idxImg2 idxEnc2 (by decide) (by decide) (by decide) (by decide)
    (by decide) (by decide) 0 1 (by decide) (by decide)

